import Mathlib

/-!
Shallow embedding of the core of the stratus transaction-execution service:
Ethereum primitive types (`src/eth/primitives/address.rs`, `log.rs`),
the log filter matcher (`src/eth/primitives/log_filter.rs`),
the storage configuration parser (`src/config.rs`), and the executor
coordinator control flow (`src/eth/executor.rs`).

External collaborators (the EVM worker pool, the storage backend, the
miner and the broadcast channels) are modelled as oracles: each call the
executor makes to them is one entry of an outcome trace, and the effects
the executor would perform on them are recorded in an explicit `Effects`
record.
-/

namespace Stratus

/-- A single byte. -/
abbrev Byte := Fin 256

/-- Opaque byte sequence (`Bytes` primitive). -/
abbrev Bytes := List Byte

/-- Ethereum block number (unsigned integer primitive). -/
abbrev BlockNumber := Nat

/-- Address of an Ethereum account: a 20-byte identifier
(`src/eth/primitives/address.rs`, newtype over `H160`). -/
structure Address where
  bytes : Fin 20 → Byte

instance : DecidableEq Address := fun a b =>
  decidable_of_iff (a.bytes = b.bytes) (by cases a; cases b; simp)

/-- Special ETH address used in some contexts (`Address::ZERO`): all bytes zero. -/
def Address.ZERO : Address := ⟨fun _ => 0⟩

/-- Special address that receives the block reward (`Address::COINBASE`):
bytes `0x00…00ff`, i.e. last byte `0xff`, all others zero. -/
def Address.COINBASE : Address := ⟨fun i => if i.val = 19 then 255 else 0⟩

/-- `Address::is_zero`: checks if current address is the zero address. -/
def Address.is_zero (a : Address) : Bool := a = Address.ZERO

/-- `Address::is_coinbase`: checks if current address is the coinbase address. -/
def Address.is_coinbase (a : Address) : Bool := a = Address.COINBASE

/-- `Address::is_ignored`: checks if current address should have their
updates ignored (source: `self.is_coinbase() || self.is_zero()`). -/
def Address.is_ignored (a : Address) : Bool := a.is_coinbase || a.is_zero

/-- `ethers_core::types::NameOrAddress`: either an ENS name or an address. -/
inductive NameOrAddress where
  | name (ensName : List Char)
  | address (value : Fin 20 → Byte)

/-- `impl From<NameOrAddress> for Address` (`address.rs`): the `Name` arm is an
unconditional `panic!("TODO")`, modelled as `none`; the `Address` arm wraps the
contained `H160` value. -/
def Address.fromNameOrAddress : NameOrAddress → Option Address
  | .name _ => none
  | .address value => some ⟨value⟩

/-- 32-byte identifier used for both blocks and transactions
(`src/eth/primitives/hash.rs`). -/
structure Hash where
  bytes : Fin 32 → Byte

instance : DecidableEq Hash := fun a b =>
  decidable_of_iff (a.bytes = b.bytes) (by cases a; cases b; simp)

/-- Log topic: exactly 32 bytes (`LogTopic` primitive). -/
structure LogTopic where
  bytes : Fin 32 → Byte

instance : DecidableEq LogTopic := fun a b =>
  decidable_of_iff (a.bytes = b.bytes) (by cases a; cases b; simp)

/-- Log emitted by the EVM during contract execution
(`src/eth/primitives/log.rs`). -/
structure Log where
  address : Address
  topics : List LogTopic
  data : Bytes
deriving DecidableEq

/-- Modelled from the spec: `LogMined` (primitives module not under `src/`):
a `Log` after mining, gaining its position in the chain
(`block_hash`, `block_number`, `tx_hash`, `tx_index`, `log_index`).
The filter matcher accesses only `address()`, `topics()` and `block_number`. -/
structure LogMined where
  log : Log
  blockHash : Hash
  blockNumber : BlockNumber
  transactionHash : Hash
  transactionIndex : Nat
  logIndex : Nat
deriving DecidableEq

/-- `LogMined::address()`: the address that emitted the underlying log. -/
def LogMined.address (l : LogMined) : Address := l.log.address

/-- `LogMined::topics()`: the topics of the underlying log. -/
def LogMined.topics (l : LogMined) : List LogTopic := l.log.topics

/-- `LogFilterTopicCombination` (`log_filter.rs`): newtype over
`Vec<(usize, LogTopic)>`. -/
structure LogFilterTopicCombination where
  pairs : List (Nat × LogTopic)
deriving DecidableEq

/-- The loop body of `LogFilterTopicCombination::matches`: for each
`(topic_index, topic)` pair, `return false` when
`log_topics.get(topic_index).is_some_and(|log_topic| log_topic != topic)`;
when the loop finishes, `true`. -/
def topicPairsMatch : List (Nat × LogTopic) → List LogTopic → Bool
  | [], _ => true
  | p :: rest, logTopics =>
    match logTopics.get? p.1 with
    | some logTopic => if logTopic ≠ p.2 then false else topicPairsMatch rest logTopics
    | none => topicPairsMatch rest logTopics

/-- `LogFilterTopicCombination::matches(log_topics)`. -/
def LogFilterTopicCombination.matches (c : LogFilterTopicCombination)
    (logTopics : List LogTopic) : Bool :=
  topicPairsMatch c.pairs logTopics

/-- `LogFilter` (`log_filter.rs`). -/
structure LogFilter where
  from_block : BlockNumber
  to_block : Option BlockNumber
  addresses : List Address
  topics_combinations : List LogFilterTopicCombination
deriving DecidableEq

/-- `LogFilter::matches(log)`: block-range check, address check, then the
topic-combination search. The source initialises
`found_matching_combination = topics_combinations.is_empty()` and sets it to
`true` (breaking) at the first matching combination, which is
`isEmpty || any matches`. -/
def LogFilter.matches (f : LogFilter) (log : LogMined) : Bool :=
  if log.blockNumber < f.from_block then false
  else if (match f.to_block with
           | some to_block => decide (log.blockNumber > to_block)
           | none => false) then false
  else if !(f.addresses.contains log.address) then false
  else
    f.topics_combinations.isEmpty ||
      f.topics_combinations.any (fun c => c.matches log.topics)

/-- `StorageConfig` (`src/config.rs`). -/
inductive StorageConfig where
  | inMemory
  | postgres (url : List Char)
deriving DecidableEq

/-- The literal `"inmemory"` of `config.rs`, as a character list. -/
def inmemoryStr : List Char := String.toList "inmemory"

/-- The literal `"postgres://"` of `config.rs`, as a character list. -/
def postgresScheme : List Char := String.toList "postgres://"

/-- The literal `"unknown storage: "` of the `config.rs` error message. -/
def unknownStorageMsg : List Char := String.toList "unknown storage: "

/-- `impl FromStr for StorageConfig` (`config.rs`): `"inmemory"` maps to
`InMemory`; a string starting with `"postgres://"` maps to `Postgres` carrying
the whole string as `url`; anything else is `Err(anyhow!("unknown storage: {}", s))`.
Strings are modelled as `List Char`. -/
def StorageConfig.from_str (s : List Char) : Except (List Char) StorageConfig :=
  if s = inmemoryStr then .ok .inMemory
  else if postgresScheme.isPrefixOf s then .ok (.postgres s)
  else .error (unknownStorageMsg ++ s)

/-- Modelled from the spec: the result status of an EVM execution
(`Success | Revert | Halt`). -/
inductive ExecutionResult where
  | success
  | revert
  | halt
deriving DecidableEq

/-- Modelled from the spec: `Execution` (primitives module not under `src/`) —
the output of EVM evaluation. The executor treats it opaquely
(clones it, checks it for conflicts, returns it). -/
structure Execution where
  result : ExecutionResult
  output : Bytes
  logs : List Log
deriving DecidableEq

/-- Modelled from the spec: the wire-form transaction `TransactionInput`
(primitives module not under `src/`). The executor reads only `signer`
(validation) besides logging fields. `fromAddress` stands for the source
field `from`. -/
structure TransactionInput where
  hash : Hash
  nonce : Nat
  fromAddress : Address
  signer : Address
  toAddress : Option Address
  input : Bytes
deriving DecidableEq

/-- Modelled from the spec: `TransactionMined` — a transaction inside a
mined block, with its execution and mined logs. -/
structure TransactionMined where
  input : TransactionInput
  execution : Execution
  logs : List LogMined
  transactionIndex : Nat
deriving DecidableEq

/-- Modelled from the spec: `Block` — header number plus the mined
transactions. The executor iterates `block.transactions` and each
transaction's `logs` to send log notifications. -/
structure Block where
  number : BlockNumber
  transactions : List TransactionMined
deriving DecidableEq

/-- Modelled from the spec: `StorageConflict` — the set of divergences
between what an execution observed and the committed state. The executor
only logs its contents. -/
structure StorageConflict where
  entries : List (Address × Nat)
deriving DecidableEq

/-- Modelled from the spec: `EthStorageError` (storage module not under
`src/`): `save_block` fails either with `Conflict(details)` or with some
other storage error. -/
inductive EthStorageError where
  | conflict (c : StorageConflict)
  | other (code : Nat)
deriving DecidableEq

/-- Errors surfaced by the executor (`anyhow::Error` in the source):
the zero-signer rejection, a storage error converted by `e.into()`,
or any other opaque error (EVM failure, conversion failure, …). -/
inductive EthError where
  | zeroSigner
  | storage (e : EthStorageError)
  | generic (code : Nat)
deriving DecidableEq

/-- Modelled from the spec: `StoragePointInTime` — `Present` or `Past(n)`. -/
inductive StoragePointInTime where
  | present
  | past (n : BlockNumber)
deriving DecidableEq

/-- Modelled from the spec: `CallInput` — the read-only call payload. -/
structure CallInput where
  fromAddress : Address
  toAddress : Option Address
  data : Bytes
deriving DecidableEq

/-- Modelled from the spec: `EvmInput` variants `Transact` and `Call`
(`src/eth/evm` not under `src/`). -/
inductive EvmInput where
  | transact (tx : TransactionInput) (pointInTime : StoragePointInTime)
  | call (input : CallInput) (pointInTime : StoragePointInTime)
deriving DecidableEq

/-- Oracle outcomes for one iteration of the `transact` retry loop: what the
external collaborators answer to, in order, `execute_in_evm`,
`check_conflicts`, `mine_with_one_transaction` and `save_block`. -/
structure IterOutcome where
  exec : Except EthError Execution
  check : Except EthError (Option StorageConflict)
  mine : Except EthError Block
  save : Except EthStorageError Unit

/-- Externally visible effects the executor performs: how many EVM
submissions, miner invocations and `save_block` calls it makes, which blocks
were successfully persisted, and how many sends it performs on the block and
log broadcast channels. -/
structure Effects where
  evmCalls : Nat
  mineCalls : Nat
  saveCalls : Nat
  savedBlocks : List Block
  blockSends : Nat
  logSends : Nat
deriving DecidableEq

/-- No effects at all. -/
def Effects.empty : Effects := ⟨0, 0, 0, [], 0, 0⟩

/-- Pointwise accumulation of effects. -/
def Effects.add (a b : Effects) : Effects :=
  ⟨a.evmCalls + b.evmCalls, a.mineCalls + b.mineCalls, a.saveCalls + b.saveCalls,
   a.savedBlocks ++ b.savedBlocks, a.blockSends + b.blockSends, a.logSends + b.logSends⟩

/-- Effects of an iteration that stopped after the EVM submission. -/
def Effects.oneEvm : Effects := ⟨1, 0, 0, [], 0, 0⟩

/-- Effects of an iteration that submitted to the EVM and invoked the miner. -/
def Effects.evmAndMine : Effects := ⟨1, 1, 0, [], 0, 0⟩

/-- Effects of an iteration that reached `save_block`; `bs` is the list of
blocks it successfully persisted (empty when the save failed). -/
def Effects.fullIteration (bs : List Block) : Effects := ⟨1, 1, 1, bs, 0, 0⟩

/-- Effects of the notification phase: `b` block sends, `l` log sends. -/
def Effects.notify (b l : Nat) : Effects := ⟨0, 0, 0, [], b, l⟩

/-- Total number of mined logs carried by a block (the executor sends one log
notification per log of each transaction of the block). -/
def blockLogCount (b : Block) : Nat := (b.transactions.map (fun t => t.logs.length)).sum

/-- The `loop { … }` of `EthExecutor::transact` (`executor.rs` lines 96-116),
driven by the trace of oracle outcomes, one `IterOutcome` per iteration.
`conv` is the (per-transaction, hence iteration-independent) outcome of
`transaction.clone().try_into()`. Each iteration: convert, execute in the
EVM (`?` propagates errors), `check_conflicts` (`?` propagates errors;
`Some(conflicts)` ⇒ `continue`), mine (`?` propagates errors), then
`save_block` (`Ok` ⇒ `break`, `Err(Conflict)` ⇒ `continue`, other errors ⇒
`return Err(e.into())`). `none` means the trace ended before the loop did. -/
def transactLoop (conv : Except EthError EvmInput) :
    List IterOutcome → Option (Except EthError (Execution × Block)) × Effects
  | [] => (none, Effects.empty)
  | o :: rest =>
    match conv with
    | .error e => (some (.error e), Effects.empty)
    | .ok _ =>
      match o.exec with
      | .error e => (some (.error e), Effects.oneEvm)
      | .ok execution =>
        match o.check with
        | .error e => (some (.error e), Effects.oneEvm)
        | .ok (some _conflicts) =>
          let r := transactLoop conv rest
          (r.1, Effects.add Effects.oneEvm r.2)
        | .ok none =>
          match o.mine with
          | .error e => (some (.error e), Effects.evmAndMine)
          | .ok block =>
            match o.save with
            | .ok _ => (some (.ok (execution, block)), Effects.fullIteration [block])
            | .error (.conflict _conflicts) =>
              let r := transactLoop conv rest
              (r.1, Effects.add (Effects.fullIteration []) r.2)
            | .error (.other code) =>
              (some (.error (.storage (.other code))), Effects.fullIteration [])

/-- `EthExecutor::transact` after the zero-signer validation: run the retry
loop; on success, send one block notification and one log notification per
mined log (`executor.rs` lines 118-130) and return `Ok(execution)`. The send
results `blockSendOk` and `logSendOks` are only logged by the source
(`if let Err(e) = … { tracing::error!(…) }`), so they influence nothing. -/
def transactPipeline (conv : Except EthError EvmInput) (trace : List IterOutcome)
    (blockSendOk : Bool) (logSendOks : List Bool) :
    Option (Except EthError Execution) × Effects :=
  match transactLoop conv trace with
  | (none, eff) => (none, eff)
  | (some (.error e), eff) => (some (.error e), eff)
  | (some (.ok (execution, block)), eff) =>
    (some (.ok execution), Effects.add eff (Effects.notify 1 (blockLogCount block)))

/-- `EthExecutor::transact` (`executor.rs` lines 76-133): validate
(`transaction.signer.is_zero()` ⇒ reject with the zero-address error before
touching the EVM, miner, storage or notifiers), then run the pipeline. -/
def transact (tx : TransactionInput) (conv : Except EthError EvmInput)
    (trace : List IterOutcome) (blockSendOk : Bool) (logSendOks : List Bool) :
    Option (Except EthError Execution) × Effects :=
  if tx.signer.is_zero then (some (.error .zeroSigner), Effects.empty)
  else transactPipeline conv trace blockSendOk logSendOks

/-- `EthExecutor::call` (`executor.rs` lines 136-147): build the
`EvmInput` from `(input, point_in_time)`, submit it to the EVM worker pool
(`execute_in_evm`, modelled by the oracle `evm`), propagate its error with
`?`, and return the execution. Nothing else happens. -/
def call (input : CallInput) (pointInTime : StoragePointInTime)
    (evm : EvmInput → Except EthError Execution) :
    Except EthError Execution × Effects :=
  (evm (.call input pointInTime), Effects.oneEvm)

/-- Persisted storage after the executor ran: the blocks it successfully
saved are appended to the previously committed chain. -/
def applySavedBlocks (storage : List Block) (eff : Effects) : List Block :=
  storage ++ eff.savedBlocks

/-- `read_block(Latest).number` over the modelled persisted chain. -/
def readLatestNumber (storage : List Block) : Option BlockNumber :=
  storage.getLast?.map Block.number

/-! Concrete sample values used to instantiate theorems with hypotheses. -/

/-- A concrete non-zero, non-coinbase address (first byte `0x01`). -/
def addr1 : Address := ⟨fun i => if i.val = 0 then 1 else 0⟩

/-- A concrete log topic (all bytes `0x01`). -/
def topicA : LogTopic := ⟨fun _ => 1⟩

/-- Another concrete log topic (all bytes `0x02`). -/
def topicB : LogTopic := ⟨fun _ => 2⟩

/-- A concrete hash (all bytes zero). -/
def hash0 : Hash := ⟨fun _ => 0⟩

/-- A concrete transaction whose signer is the zero address. -/
def txZero : TransactionInput := ⟨hash0, 0, addr1, Address.ZERO, none, []⟩

/-- A concrete transaction whose signer is `addr1` (not zero). -/
def txOne : TransactionInput := ⟨hash0, 0, addr1, addr1, none, []⟩

/-- A concrete EVM input. -/
def input0 : EvmInput := .call ⟨addr1, none, []⟩ .present

/-- A concrete execution. -/
def execution0 : Execution := ⟨.success, [], []⟩

/-- A concrete (empty) storage conflict. -/
def conflicts0 : StorageConflict := ⟨[]⟩

/-- A concrete block with no transactions. -/
def block0 : Block := ⟨0, []⟩

/-- A concrete mined log from `addr1` with a single topic, in block 5. -/
def logMined0 : LogMined := ⟨⟨addr1, [topicA], []⟩, hash0, 5, hash0, 0, 0⟩

/-- A concrete filter accepting `addr1` over blocks `[0, ∞)` whose only
topic combination is the empty one. -/
def filterEmptyCombination : LogFilter := ⟨0, none, [addr1], [⟨[]⟩]⟩

/-- A concrete filter accepting `addr1` over blocks `[0, 9]` with no topic
combinations at all. -/
def filterNoCombinations : LogFilter := ⟨0, some 9, [addr1], []⟩

end Stratus

namespace Stratus

/-! Theorems about the embedded program. -/

/-- Helper for the topic-combination matcher: the loop returns `true` exactly
when every listed position that is in range of the topic list carries the
expected topic; out-of-range positions never cause a rejection. -/
theorem topicPairsMatch_eq_true_iff (pairs : List (Nat × LogTopic)) (logTopics : List LogTopic) :
    topicPairsMatch pairs logTopics = true ↔
      ∀ p ∈ pairs, ∀ lt, logTopics.get? p.1 = some lt → lt = p.2 := by
  induction pairs with
  | nil => simp [topicPairsMatch]
  | cons p rest ih =>
    simp only [topicPairsMatch]
    cases hg : logTopics.get? p.1 with
    | none =>
      constructor
      · intro h
        refine List.forall_mem_cons.mpr ⟨?_, ih.mp h⟩
        intro lt hlt
        rw [hg] at hlt
        exact absurd hlt (by simp)
      · intro h
        exact ih.mpr (List.forall_mem_cons.mp h).2
    | some lt =>
      show (if lt ≠ p.2 then false else topicPairsMatch rest logTopics) = true ↔ _
      by_cases hlt : lt = p.2
      · rw [if_neg (fun hc => hc hlt)]
        constructor
        · intro h
          refine List.forall_mem_cons.mpr ⟨?_, ih.mp h⟩
          intro lt2 hlt2
          rw [hg] at hlt2
          injection hlt2 with he
          rw [← he]
          exact hlt
        · intro h
          exact ih.mpr (List.forall_mem_cons.mp h).2
      · rw [if_pos hlt]
        constructor
        · intro h
          exact absurd h (by simp)
        · intro h
          exact absurd ((List.forall_mem_cons.mp h).1 lt hg) hlt

/-- C1 counterexample: the combination `[(0, topicA)]` matches the empty
topic list even though position `0` does not exist there, refuting the
"topic at that position exists" part of the claim. -/
theorem topic_combination_position_counterexample :
    LogFilterTopicCombination.matches ⟨[(0, topicA)]⟩ [] = true ∧
    ¬ (∀ p ∈ [((0 : Nat), topicA)], ∃ lt,
        ([] : List LogTopic).get? p.1 = some lt ∧ lt = p.2) := by
  constructor
  · decide
  · intro h
    obtain ⟨lt, hlt, _⟩ := h (0, topicA) (by simp)
    simp at hlt

/-- C1 (amended): a topic combination matches a topic list iff for every
`(position, expected_topic)` pair, the topic at that position, **when it
exists**, equals `expected_topic`; positions not listed in the combination
and positions beyond the end of the topic list are unconstrained. -/
theorem topic_combination_matches_amended (c : LogFilterTopicCombination)
    (logTopics : List LogTopic) :
    c.matches logTopics = true ↔
      ∀ p ∈ c.pairs, ∀ lt, logTopics.get? p.1 = some lt → lt = p.2 :=
  topicPairsMatch_eq_true_iff c.pairs logTopics

/-- Helper: full characterization of `LogFilter::matches` as a proposition —
the log is in the block range, its address is listed, and either there are no
topic combinations or some combination matches. -/
theorem log_filter_matches_iff (f : LogFilter) (log : LogMined) :
    f.matches log = true ↔
      (f.from_block ≤ log.blockNumber ∧
       (∀ tb ∈ f.to_block, log.blockNumber ≤ tb) ∧
       log.address ∈ f.addresses ∧
       (f.topics_combinations = [] ∨
         ∃ c ∈ f.topics_combinations, c.matches log.topics = true)) := by
  unfold LogFilter.matches
  split_ifs with h1 h2 h3
  · simp only [Bool.false_eq_true, false_iff]
    rintro ⟨hf, -, -, -⟩
    exact absurd hf (not_le.mpr h1)
  · simp only [Bool.false_eq_true, false_iff]
    rintro ⟨-, hto, -, -⟩
    cases hb : f.to_block with
    | none => rw [hb] at h2; exact absurd h2 (by simp)
    | some tb =>
      rw [hb] at h2
      have hle := hto tb hb
      simp at h2
      exact absurd hle (not_le.mpr h2)
  · simp only [Bool.false_eq_true, false_iff]
    rintro ⟨-, -, haddr, -⟩
    simp at h3
    exact h3 haddr
  · have hfrom : f.from_block ≤ log.blockNumber := not_lt.mp h1
    have hto : ∀ tb ∈ f.to_block, log.blockNumber ≤ tb := by
      intro tb htb
      rw [htb] at h2
      simpa using h2
    have haddr : log.address ∈ f.addresses := by
      simp at h3
      exact h3
    simp only [Bool.or_eq_true, List.isEmpty_iff, List.any_eq_true]
    constructor
    · intro h
      exact ⟨hfrom, hto, haddr, h⟩
    · intro h
      exact h.2.2.2

/-- C10: the empty topic combination matches every topic list, and a filter
whose `topics_combinations` contains the empty combination matches any log
(whatever its topics) as soon as the block-range and address conditions
hold. -/
theorem empty_topic_combination_matches_all :
    (∀ logTopics : List LogTopic,
      LogFilterTopicCombination.matches ⟨[]⟩ logTopics = true) ∧
    (∀ (f : LogFilter) (log : LogMined),
      LogFilterTopicCombination.mk [] ∈ f.topics_combinations →
      f.from_block ≤ log.blockNumber →
      (∀ tb ∈ f.to_block, log.blockNumber ≤ tb) →
      log.address ∈ f.addresses →
      f.matches log = true) := by
  constructor
  · intro logTopics
    rfl
  · intro f log hmem hfrom hto haddr
    exact (log_filter_matches_iff f log).mpr
      ⟨hfrom, hto, haddr, Or.inr ⟨⟨[]⟩, hmem, rfl⟩⟩

/-- C10 witness: the concrete filter `⟨0, none, [addr1], [empty]⟩` matches
the concrete mined log `logMined0` regardless of that log's topics. -/
theorem empty_topic_combination_matches_all_witness :
    filterEmptyCombination.matches logMined0 = true :=
  empty_topic_combination_matches_all.2 filterEmptyCombination logMined0
    (by simp [filterEmptyCombination]) (by decide)
    (by intro tb htb; simp [filterEmptyCombination] at htb) (by simp [filterEmptyCombination, logMined0, LogMined.address])

/-- C4: a filter matches a mined log only if the log's block number is at
least `from_block`, at most `to_block` when that bound is present, and the
log's address is among the filter's addresses; conversely, when those hold
and `topics_combinations` is empty the filter matches. -/
theorem log_filter_matches_conditions (f : LogFilter) (log : LogMined) :
    (f.matches log = true →
      f.from_block ≤ log.blockNumber ∧
      (∀ tb ∈ f.to_block, log.blockNumber ≤ tb) ∧
      log.address ∈ f.addresses) ∧
    (f.from_block ≤ log.blockNumber →
      (∀ tb ∈ f.to_block, log.blockNumber ≤ tb) →
      log.address ∈ f.addresses →
      f.topics_combinations = [] →
      f.matches log = true) := by
  constructor
  · intro h
    obtain ⟨hfrom, hto, haddr, -⟩ := (log_filter_matches_iff f log).mp h
    exact ⟨hfrom, hto, haddr⟩
  · intro hfrom hto haddr hcomb
    exact (log_filter_matches_iff f log).mpr ⟨hfrom, hto, haddr, Or.inl hcomb⟩

/-- C4 witness: the concrete filter `⟨0, some 9, [addr1], []⟩` matches the
concrete mined log `logMined0` (block 5, emitted by `addr1`), and that match
entails the block-range and address conditions. -/
theorem log_filter_matches_conditions_witness :
    filterNoCombinations.matches logMined0 = true ∧
    filterNoCombinations.from_block ≤ logMined0.blockNumber ∧
    (∀ tb ∈ filterNoCombinations.to_block, logMined0.blockNumber ≤ tb) ∧
    logMined0.address ∈ filterNoCombinations.addresses := by
  have hm : filterNoCombinations.matches logMined0 = true :=
    (log_filter_matches_conditions filterNoCombinations logMined0).2
      (by decide) (by intro tb htb; simp [filterNoCombinations] at htb; subst htb; decide)
      (by simp [filterNoCombinations, logMined0, LogMined.address]) rfl
  exact ⟨hm, (log_filter_matches_conditions filterNoCombinations logMined0).1 hm⟩

/-- C7: `is_ignored` is the disjunction of `is_zero` and `is_coinbase`, and
holds exactly for the `ZERO` constant (20 zero bytes) and the `COINBASE`
constant (`0x00…00ff`). -/
theorem address_is_ignored_spec (a : Address) :
    a.is_ignored = (a.is_zero || a.is_coinbase) ∧
    (a.is_ignored = true ↔ a = Address.ZERO ∨ a = Address.COINBASE) := by
  constructor
  · simp [Address.is_ignored, Bool.or_comm]
  · simp [Address.is_ignored, Address.is_zero, Address.is_coinbase, or_comm]

/-- C8: converting a `NameOrAddress` into an `Address` diverges (the source
hits `panic!("TODO")`, modelled as `none`) on every `Name` variant, and
returns the contained address on every `Address` variant. -/
theorem address_from_name_or_address_spec :
    (∀ n, Address.fromNameOrAddress (.name n) = none) ∧
    (∀ v, Address.fromNameOrAddress (.address v) = some ⟨v⟩) :=
  ⟨fun _ => rfl, fun _ => rfl⟩

/-- C9: parsing a storage configuration string yields `InMemory` exactly for
`"inmemory"`, yields `Postgres` carrying the whole string for every string
starting with `"postgres://"`, and fails on every other string. -/
theorem storage_config_from_str_spec (s : List Char) :
    (StorageConfig.from_str s = .ok .inMemory ↔ s = inmemoryStr) ∧
    (postgresScheme.isPrefixOf s = true →
      StorageConfig.from_str s = .ok (.postgres s)) ∧
    (s ≠ inmemoryStr → postgresScheme.isPrefixOf s = false →
      StorageConfig.from_str s = .error (unknownStorageMsg ++ s)) := by
  by_cases h1 : s = inmemoryStr
  · subst h1
    refine ⟨by simp [StorageConfig.from_str], ?_, ?_⟩
    · intro hp
      exact absurd hp (by decide)
    · intro h _
      exact absurd rfl h
  · by_cases h2 : postgresScheme.isPrefixOf s = true
    · refine ⟨?_, ?_, ?_⟩
      · unfold StorageConfig.from_str
        rw [if_neg h1, h2, if_pos rfl]
        simp [h1]
      · intro _
        unfold StorageConfig.from_str
        rw [if_neg h1, h2, if_pos rfl]
      · intro _ hc
        rw [h2] at hc
        exact absurd hc (by simp)
    · have h2f : postgresScheme.isPrefixOf s = false := Bool.eq_false_iff.mpr h2
      refine ⟨?_, ?_, ?_⟩
      · unfold StorageConfig.from_str
        rw [if_neg h1, h2f]
        simp [h1]
      · intro hp
        exact absurd hp h2
      · intro _ _
        unfold StorageConfig.from_str
        rw [if_neg h1, h2f]
        simp

/-- C9 witness: the parser at concrete inputs of the three kinds. -/
theorem storage_config_from_str_spec_witness :
    StorageConfig.from_str (String.toList "postgres://db") =
      .ok (.postgres (String.toList "postgres://db")) ∧
    StorageConfig.from_str (String.toList "bogus") =
      .error (unknownStorageMsg ++ String.toList "bogus") :=
  ⟨(storage_config_from_str_spec (String.toList "postgres://db")).2.1 (by decide),
   (storage_config_from_str_spec (String.toList "bogus")).2.2 (by decide) (by decide)⟩

/-- C3: `transact` rejects a zero-signer transaction with the zero-signer
error before performing any effect (no EVM submission, no mining, no save,
no notification; the persisted chain and `read_block(Latest)` are
unchanged), and a transaction whose signer is not zero is never rejected for
this reason: it proceeds to the execution pipeline. -/
theorem transact_zero_signer_rejection
    (tx : TransactionInput) (conv : Except EthError EvmInput) (trace : List IterOutcome)
    (blockSendOk : Bool) (logSendOks : List Bool) (storage : List Block) :
    (tx.signer = Address.ZERO →
      transact tx conv trace blockSendOk logSendOks =
        (some (.error .zeroSigner), Effects.empty) ∧
      applySavedBlocks storage (transact tx conv trace blockSendOk logSendOks).2 = storage ∧
      readLatestNumber (applySavedBlocks storage (transact tx conv trace blockSendOk logSendOks).2) =
        readLatestNumber storage) ∧
    (tx.signer ≠ Address.ZERO →
      transact tx conv trace blockSendOk logSendOks =
        transactPipeline conv trace blockSendOk logSendOks) := by
  constructor
  · intro h
    have hz : tx.signer.is_zero = true := by simp [Address.is_zero, h]
    have ht : transact tx conv trace blockSendOk logSendOks =
        (some (.error .zeroSigner), Effects.empty) := by
      simp [transact, hz]
    refine ⟨ht, ?_, ?_⟩ <;> simp [ht, applySavedBlocks, Effects.empty]
  · intro h
    have hz : tx.signer.is_zero = false := by simp [Address.is_zero, h]
    simp [transact, hz]

/-- C3 witness: the concrete zero-signer transaction is rejected with no
effects; the concrete non-zero-signer one reaches the pipeline. -/
theorem transact_zero_signer_rejection_witness :
    transact txZero (.error (.generic 0)) [] true [] =
      (some (.error .zeroSigner), Effects.empty) ∧
    transact txOne (.error (.generic 0)) [] true [] =
      transactPipeline (.error (.generic 0)) [] true [] :=
  ⟨((transact_zero_signer_rejection txZero (.error (.generic 0)) [] true [] []).1 rfl).1,
   (transact_zero_signer_rejection txOne (.error (.generic 0)) [] true [] []).2 (by decide)⟩

/-- C2: within `transact`, a conflict reported by `check_conflicts` and a
`Conflict` error from `save_block` both make the loop run another iteration
(the result is that of the remaining trace, with one more EVM execution, and
the conflict itself is never the returned value), while a non-`Conflict`
`save_block` error ends the call with that error surfaced to the caller. -/
theorem transact_retry_on_conflicts
    (tx : TransactionInput) (input : EvmInput) (execution : Execution)
    (conflicts : StorageConflict) (block : Block) (code : Nat)
    (rest : List IterOutcome) (m : Except EthError Block) (s : Except EthStorageError Unit)
    (blockSendOk : Bool) (logSendOks : List Bool)
    (h : tx.signer ≠ Address.ZERO) :
    ((transact tx (.ok input) (⟨.ok execution, .ok (some conflicts), m, s⟩ :: rest)
        blockSendOk logSendOks).1 =
      (transact tx (.ok input) rest blockSendOk logSendOks).1 ∧
     (transact tx (.ok input) (⟨.ok execution, .ok (some conflicts), m, s⟩ :: rest)
        blockSendOk logSendOks).2.evmCalls =
      1 + (transact tx (.ok input) rest blockSendOk logSendOks).2.evmCalls) ∧
    ((transact tx (.ok input)
        (⟨.ok execution, .ok none, .ok block, .error (.conflict conflicts)⟩ :: rest)
        blockSendOk logSendOks).1 =
      (transact tx (.ok input) rest blockSendOk logSendOks).1 ∧
     (transact tx (.ok input)
        (⟨.ok execution, .ok none, .ok block, .error (.conflict conflicts)⟩ :: rest)
        blockSendOk logSendOks).2.evmCalls =
      1 + (transact tx (.ok input) rest blockSendOk logSendOks).2.evmCalls) ∧
    (transact tx (.ok input)
        (⟨.ok execution, .ok none, .ok block, .error (.other code)⟩ :: rest)
        blockSendOk logSendOks).1 =
      some (.error (.storage (.other code))) := by
  have hz : tx.signer.is_zero = false := by simp [Address.is_zero, h]
  rcases hr : transactLoop (.ok input) rest with ⟨res, eff⟩
  rcases res with - | (e | ⟨ex, blk⟩) <;>
    simp [transact, hz, transactPipeline, transactLoop, hr,
      Effects.add, Effects.oneEvm, Effects.fullIteration, Effects.notify, Nat.add_comm]

/-- C2 witness: with a concrete conflicting first iteration, the call's
result equals the call's result on the remaining (empty) trace. -/
theorem transact_retry_on_conflicts_witness :
    (transact txOne (.ok input0)
        [⟨.ok execution0, .ok (some conflicts0), .error (.generic 1), .ok ()⟩] true []).1 =
      (transact txOne (.ok input0) [] true []).1 :=
  ((transact_retry_on_conflicts txOne input0 execution0 conflicts0 block0 7 []
      (.error (.generic 1)) (.ok ()) true [] (by decide)).1).1

/-- C5: `call` submits exactly one request to the EVM worker pool and returns
its result; it never invokes the miner, never calls `save_block`, never sends
on the block or log broadcast channels, and leaves the persisted chain (and
hence `read_block(Latest)`) unchanged. -/
theorem call_is_read_only
    (input : CallInput) (pointInTime : StoragePointInTime)
    (evm : EvmInput → Except EthError Execution) (storage : List Block) :
    (call input pointInTime evm).1 = evm (.call input pointInTime) ∧
    (call input pointInTime evm).2.evmCalls = 1 ∧
    (call input pointInTime evm).2.mineCalls = 0 ∧
    (call input pointInTime evm).2.saveCalls = 0 ∧
    (call input pointInTime evm).2.savedBlocks = [] ∧
    (call input pointInTime evm).2.blockSends = 0 ∧
    (call input pointInTime evm).2.logSends = 0 ∧
    applySavedBlocks storage (call input pointInTime evm).2 = storage ∧
    readLatestNumber (applySavedBlocks storage (call input pointInTime evm).2) =
      readLatestNumber storage := by
  refine ⟨rfl, rfl, rfl, rfl, rfl, rfl, rfl, ?_, ?_⟩ <;>
    simp [call, applySavedBlocks, Effects.oneEvm]

/-- C6: when an iteration executes, passes the conflict check, mines and
saves successfully, `transact` returns the successful execution whatever the
outcomes of the block-notification send and the log-notification sends;
send failures are never surfaced to the caller. -/
theorem transact_ignores_notification_failures
    (tx : TransactionInput) (input : EvmInput) (execution : Execution) (block : Block)
    (blockSendOk : Bool) (logSendOks : List Bool)
    (h : tx.signer ≠ Address.ZERO) :
    (transact tx (.ok input) [⟨.ok execution, .ok none, .ok block, .ok ()⟩]
        blockSendOk logSendOks).1 = some (.ok execution) := by
  have hz : tx.signer.is_zero = false := by simp [Address.is_zero, h]
  simp [transact, hz, transactPipeline, transactLoop]

/-- C6 witness: a concrete successful transaction returns its execution even
with every notification send failing. -/
theorem transact_ignores_notification_failures_witness :
    (transact txOne (.ok input0) [⟨.ok execution0, .ok none, .ok block0, .ok ()⟩]
        false [false]).1 = some (.ok execution0) :=
  transact_ignores_notification_failures txOne input0 execution0 block0 false [false]
    (by decide)

end Stratus
